import Mathlib

/-!
Shallow embedding of the `phaser` Go package (src/phaser.go): a `Phase` runs
an ordered chain of pre-hooks, an `execute` function and an ordered chain of
post-hooks over a single threaded value, short-circuiting on the first error.

Modelling conventions:
* a Go `interface{}` value is `Value α := Option α`, with `none` for Go `nil`;
* a Go `error` result is `GoError ε := Option ε`, with `none` for a nil error;
* the Go `panic` in `run` is the `Except.error` constructor carrying the
  panic message, while a normal `(value, error)` return is `Except.ok`;
* Go slices of hooks are Lean lists; the slice-returning helpers
  `prependHook`/`appendHook` become pure list functions.
-/

namespace Phaser

/-- A Go `interface{}` value; `none` models Go `nil`. -/
abbrev Value (α : Type) := Option α

/-- A Go `error`; `none` models a nil error, `some e` a non-nil one. -/
abbrev GoError (ε : Type) := Option ε

/-- `type PhaseHook func(value interface{}) (interface{}, error)` from
src/phaser.go. -/
abbrev PhaseHook (α ε : Type) := Value α → Value α × GoError ε

/-- The `Phase` struct from src/phaser.go: a name, the pre-hook chain, the
optional (nil-able) execute function and the post-hook chain. -/
structure Phase (α ε : Type) where
  Name : String
  preHooks : List (PhaseHook α ε)
  execute : Option (Value α → Value α × GoError ε)
  postHooks : List (PhaseHook α ε)

variable {α ε : Type}

/-- `func (p *Phase) handleError(err error) (interface{}, error)` from
src/phaser.go lines 77-79: `return nil, err`. -/
def Phase.handleError (_p : Phase α ε) (err : ε) : Value α × GoError ε :=
  (none, some err)

/-- `func (p *Phase) processHooks(value interface{}, hooks *[]PhaseHook)` from
src/phaser.go lines 83-93: thread `value` through the hooks in order; on the
first hook returning a non-nil error, return `p.handleError err`. -/
def Phase.processHooks (p : Phase α ε) (value : Value α)
    (hooks : List (PhaseHook α ε)) : Value α × GoError ε :=
  match hooks with
  | [] => (value, none)
  | hook :: rest =>
    match hook value with
    | (_, some err) => p.handleError err
    | (value, none) => p.processHooks value rest

/-- `func (p *Phase) run(value interface{}) (interface{}, error)` from
src/phaser.go lines 53-73: pre-hooks, nil-execute check (panic), execute,
post-hooks. `Except.error` is the panic, `Except.ok` a normal return. -/
def Phase.run (p : Phase α ε) (value : Value α) :
    Except String (Value α × GoError ε) :=
  match p.processHooks value p.preHooks with
  | (value, some err) => Except.ok (value, some err)
  | (value, none) =>
    match p.execute with
    | none => Except.error ("phase " ++ p.Name ++ " not implemented")
    | some ex =>
      match ex value with
      | (_, some err) => Except.ok (p.handleError err)
      | (value, none) =>
        match p.processHooks value p.postHooks with
        | (value, some err) => Except.ok (value, some err)
        | (value, none) => Except.ok (value, none)

/-- `func (p *Phase) prependHook(hooks *[]PhaseHook, newHook PhaseHook)` from
src/phaser.go lines 96-98: `*hooks = append([]PhaseHook{newHook}, *hooks...)`,
as a pure function on the slice. -/
def prependHook (hooks : List (PhaseHook α ε)) (newHook : PhaseHook α ε) :
    List (PhaseHook α ε) :=
  [newHook] ++ hooks

/-- `func (p *Phase) appendHook(hooks *[]PhaseHook, newHook PhaseHook)` from
src/phaser.go lines 108-110: `*hooks = append(*hooks, newHook)`. -/
def appendHook (hooks : List (PhaseHook α ε)) (newHook : PhaseHook α ε) :
    List (PhaseHook α ε) :=
  hooks ++ [newHook]

/-- `func (p *Phase) prependPreHook(hook PhaseHook)` from src/phaser.go. -/
def Phase.prependPreHook (p : Phase α ε) (hook : PhaseHook α ε) : Phase α ε :=
  { p with preHooks := prependHook p.preHooks hook }

/-- `func (p *Phase) appendPreHook(hook PhaseHook)` from src/phaser.go. -/
def Phase.appendPreHook (p : Phase α ε) (hook : PhaseHook α ε) : Phase α ε :=
  { p with preHooks := appendHook p.preHooks hook }

/-- `func (p *Phase) prependPostHook(hook PhaseHook)` from src/phaser.go. -/
def Phase.prependPostHook (p : Phase α ε) (hook : PhaseHook α ε) : Phase α ε :=
  { p with postHooks := prependHook p.postHooks hook }

/-- `func (p *Phase) appendPostHook(hook PhaseHook)` from src/phaser.go. -/
def Phase.appendPostHook (p : Phase α ε) (hook : PhaseHook α ε) : Phase α ε :=
  { p with postHooks := appendHook p.postHooks hook }

/-- One hook-attachment operation on a single chain: a `prependHook` or an
`appendHook` call, recording the hook it carries. -/
inductive ChainOp (α ε : Type) where
  | pre (hook : PhaseHook α ε)
  | app (hook : PhaseHook α ε)

/-- Run an interleaved sequence of prepend/append operations against a chain,
in call order. -/
def applyChainOps (hooks : List (PhaseHook α ε)) (ops : List (ChainOp α ε)) :
    List (PhaseHook α ε) :=
  ops.foldl
    (fun acc op =>
      match op with
      | ChainOp.pre h => prependHook acc h
      | ChainOp.app h => appendHook acc h)
    hooks

/-- A hook that never fails, built from a pure value transform. -/
def pureHook (f : Value α → Value α) : PhaseHook α ε := fun v => (f v, none)

/-- A hook that increments an Int value and reports no error. -/
def incHook : PhaseHook Int Nat := fun v => (v.map (fun x => x + 1), none)

/-- A hook that returns its input together with error `e`. -/
def failHook (e : Nat) : PhaseHook Int Nat := fun v => (v, some e)

/-- A Phase with empty chains and no execute function, like `Phase{}` in
the Go tests. -/
def emptyPhase : Phase Int Nat :=
  { Name := "demo", preHooks := [], execute := none, postHooks := [] }

/-- A Phase with no execute function whose single pre-hook fails. -/
def noExecFailPrePhase : Phase Int Nat :=
  { Name := "bad", preHooks := [failHook 7], execute := none, postHooks := [] }

/-- A Phase whose execute function fails with error 3. -/
def failExecPhase : Phase Int Nat :=
  { Name := "boom", preHooks := [incHook],
    execute := some (fun v => (v, some 3)), postHooks := [incHook] }

/-- An assertion hook from `TestTestPhaseRun` in src/phase_test.go: return
the value unchanged, with an error unless it equals `expected`. (The Go hook
does `value.(int)`, which would panic on a nil value; the round-trip run only
ever passes it int values, so the nil branch is never reached there.) -/
def assertEqHook (expected : Int) : PhaseHook Int Unit := fun value =>
  match value with
  | some x => (some x, if x = expected then none else some ())
  | none => (none, some ())

/-- The doubling pre-hook from `TestTestPhaseRun`: `value.(int) * 2`. -/
def timesTwoHook : PhaseHook Int Unit := fun value =>
  match value with
  | some x => (some (x * 2), none)
  | none => (none, some ())

/-- The halving post-hook from `TestTestPhaseRun`: `value.(int) / 2`, with
Go's truncated integer division (`Int.tdiv`). -/
def halfHook : PhaseHook Int Unit := fun value =>
  match value with
  | some x => (some (Int.tdiv x 2), none)
  | none => (none, some ())

/-- The round-trip Phase of `TestTestPhaseRun`, with the test's fixed input
`val` generalised: pre-hooks double then assert, execute asserts and passes
through, post-hooks assert, halve, assert. -/
def roundTripPhase (val : Int) : Phase Int Unit :=
  { Name := "roundtrip"
    preHooks := [timesTwoHook, assertEqHook (val * 2)]
    execute := some (assertEqHook (val * 2))
    postHooks := [assertEqHook (val * 2), halfHook, assertEqHook val] }

/- Helper lemmas shared by the claim theorems. -/

/-- `processHooks` only depends on its value and hook-list arguments, not on
the receiving Phase (its only use of the receiver is `handleError`, which
ignores the receiver). -/
theorem processHooks_congr (p q : Phase α ε) (v : Value α)
    (hooks : List (PhaseHook α ε)) :
    p.processHooks v hooks = q.processHooks v hooks := by
  induction hooks generalizing v with
  | nil => rfl
  | cons hook rest ih =>
    rcases hh : hook v with ⟨v1, e1⟩
    cases e1 with
    | none => simpa only [Phase.processHooks, hh] using ih v1
    | some e => simp only [Phase.processHooks, hh]; rfl

/-- When `processHooks` reports an error, its whole result is the receiver's
`handleError` output for that error; in particular the value slot is nil. -/
theorem processHooks_error_eq_handleError (p : Phase α ε)
    (hooks : List (PhaseHook α ε)) (v w : Value α) (err : ε)
    (h : p.processHooks v hooks = (w, some err)) :
    (w, some err) = p.handleError err := by
  induction hooks generalizing v with
  | nil => simp [Phase.processHooks] at h
  | cons hook rest ih =>
    rcases hh : hook v with ⟨v1, e1⟩
    cases e1 with
    | none =>
      rw [Phase.processHooks, hh] at h
      exact ih v1 h
    | some e =>
      rw [Phase.processHooks, hh] at h
      simp only [Phase.handleError] at h
      injection h with hw he
      injection he with he
      subst hw; subst he
      rfl

/-- When `processHooks` succeeds on a prefix, running the extended chain
continues from the prefix's output value. -/
theorem processHooks_append_of_ok (p : Phase α ε)
    (pre : List (PhaseHook α ε)) (v vk : Value α)
    (h : p.processHooks v pre = (vk, none)) (rest : List (PhaseHook α ε)) :
    p.processHooks v (pre ++ rest) = p.processHooks vk rest := by
  induction pre generalizing v with
  | nil =>
    simp only [Phase.processHooks] at h
    injection h with hv he
    subst hv
    simp
  | cons hook t ih =>
    rcases hh : hook v with ⟨v1, e1⟩
    cases e1 with
    | none =>
      rw [Phase.processHooks, hh] at h
      rw [List.cons_append, Phase.processHooks, hh]
      exact ih v1 h
    | some e =>
      rw [Phase.processHooks, hh] at h
      simp [Phase.handleError] at h

/-- Folding `appendHook` over a list of hooks appends them in call order. -/
theorem foldl_appendHook (l acc : List (PhaseHook α ε)) :
    l.foldl appendHook acc = acc ++ l := by
  induction l generalizing acc with
  | nil => simp
  | cons h t ih => simp [List.foldl_cons, appendHook, ih]

/-- C1: if hook k = pre.length + 1 (1-indexed) is the first hook of the chain
`pre ++ hk :: post` to return a non-nil error (all of `pre` succeeded,
threading the value to `vk`, and `hk vk` errs), then the hooks after it are
never invoked (the result equals that of the chain truncated right after
`hk`) and the apply result equals the owner's error handler applied to that
error — with the default handler, `(nil, err)`. -/
theorem processHooks_stops_at_first_error (p : Phase α ε)
    (pre post : List (PhaseHook α ε)) (hk : PhaseHook α ε)
    (v0 vk w : Value α) (err : ε)
    (hpre : p.processHooks v0 pre = (vk, none))
    (hfail : hk vk = (w, some err)) :
    p.processHooks v0 (pre ++ hk :: post) = p.handleError err ∧
    p.processHooks v0 (pre ++ hk :: post)
      = p.processHooks v0 (pre ++ [hk]) := by
  have hstep : ∀ rest, p.processHooks v0 (pre ++ hk :: rest)
      = p.handleError err := by
    intro rest
    rw [processHooks_append_of_ok p pre v0 vk hpre (hk :: rest),
      Phase.processHooks, hfail]
  exact ⟨hstep post, (hstep post).trans (hstep []).symm⟩

/-- C1 witness: in the chain `[incHook, failHook 5, incHook]` the second hook
is the first to fail; the result is the default handler's `(nil, 5)` and the
trailing `incHook` plays no role. -/
theorem processHooks_stops_at_first_error_witness :
    emptyPhase.processHooks (some 0) ([incHook] ++ failHook 5 :: [incHook])
      = emptyPhase.handleError 5 ∧
    emptyPhase.processHooks (some 0) ([incHook] ++ failHook 5 :: [incHook])
      = emptyPhase.processHooks (some 0) ([incHook] ++ [failHook 5]) :=
  processHooks_stops_at_first_error emptyPhase [incHook] [incHook] (failHook 5)
    (some 0) (some 1) (some 1) 5 rfl rfl

/-- When the pre-hook chain succeeds and the assigned execute function
errors, `run` returns the error handler's output for that error. -/
theorem run_execute_error_aux (p : Phase α ε)
    (ex : Value α → Value α × GoError ε) (v0 v1 w : Value α) (err : ε)
    (hex : p.execute = some ex)
    (hpre : p.processHooks v0 p.preHooks = (v1, none))
    (hfail : ex v1 = (w, some err)) :
    p.run v0 = Except.ok (p.handleError err) := by
  rw [Phase.run]
  simp only [hpre, hex, hfail]

/-- C2: if the Phase has an assigned execute function, all pre-hooks succeed
(threading the input to `v1`) and execute returns a non-nil error, then `run`
returns the error handler's output for that error, and the post-hook chain is
never invoked: the result is the same whatever the post-hooks are. -/
theorem run_execute_error_skips_postHooks (p : Phase α ε)
    (ex : Value α → Value α × GoError ε) (v0 v1 w : Value α) (err : ε)
    (hex : p.execute = some ex)
    (hpre : p.processHooks v0 p.preHooks = (v1, none))
    (hfail : ex v1 = (w, some err)) :
    p.run v0 = Except.ok (p.handleError err) ∧
    ∀ posts, Phase.run { p with postHooks := posts } v0
      = Except.ok (p.handleError err) := by
  refine ⟨run_execute_error_aux p ex v0 v1 w err hex hpre hfail, ?_⟩
  intro posts
  have hex' : ({ p with postHooks := posts } : Phase α ε).execute = some ex :=
    hex
  have hpre' : Phase.processHooks { p with postHooks := posts } v0
      ({ p with postHooks := posts } : Phase α ε).preHooks = (v1, none) :=
    (processHooks_congr { p with postHooks := posts } p v0 p.preHooks).trans
      hpre
  exact run_execute_error_aux { p with postHooks := posts } ex v0 v1 w err
    hex' hpre' hfail

/-- C2 witness: a Phase whose execute fails with error 3 after a successful
pre-hook; `run` returns `(nil, 3)` and replacing the post-hooks by a failing
hook changes nothing. -/
theorem run_execute_error_skips_postHooks_witness :
    failExecPhase.run (some 0) = Except.ok (failExecPhase.handleError 3) ∧
    Phase.run { failExecPhase with postHooks := [failHook 9] } (some 0)
      = Except.ok (failExecPhase.handleError 3) := by
  have h := run_execute_error_skips_postHooks failExecPhase
    (fun v => (v, some 3)) (some 0) (some 1) (some 1) 3 rfl rfl rfl
  exact ⟨h.1, h.2 [failHook 9]⟩

/-- C3 counterexample: a Phase with an unassigned (nil) execute function
whose `run`, at input `some 0`, returns a normal (value, error) pair instead
of panicking, because a failing pre-hook short-circuits `run` before the
nil-execute check is reached. -/
theorem run_nil_execute_panic_cex :
    noExecFailPrePhase.execute = none ∧
    noExecFailPrePhase.run (some 0) = Except.ok (none, some 7) :=
  ⟨rfl, rfl⟩

/-- C3 amended: for every Phase whose execute function is unassigned and
every input on which the pre-hook chain succeeds, `run` panics with
"phase NAME not implemented" rather than returning a (value, error) pair.
(Without the pre-hook proviso a failing pre-hook makes `run` return a pair;
see the counterexample.) -/
theorem run_nil_execute_panics (p : Phase α ε) (v0 v1 : Value α)
    (hex : p.execute = none)
    (hpre : p.processHooks v0 p.preHooks = (v1, none)) :
    p.run v0 = Except.error ("phase " ++ p.Name ++ " not implemented") := by
  rw [Phase.run]
  simp only [hpre, hex]

/-- C3 witness: the zero-value Phase of `TestDefaultRunPanics` (no hooks, no
execute) panics on any input. -/
theorem run_nil_execute_panics_witness :
    emptyPhase.run (some 0)
      = Except.error ("phase " ++ emptyPhase.Name ++ " not implemented") :=
  run_nil_execute_panics emptyPhase (some 0) (some 0) rfl rfl

/-- C4: on any chain state reached from the empty chain by an interleaved
sequence of prepend/append operations, `prependHook` places the new hook at
index 0 ahead of every present hook, keeps the existing hooks in their
relative order (the tail is exactly the previous chain), and a second
prepend lands in front again — so repeated prepends sit at the front in
reverse order of their calls. -/
theorem prependHook_places_at_front (ops : List (ChainOp α ε))
    (h g : PhaseHook α ε) :
    (prependHook (applyChainOps [] ops) h).head? = some h ∧
    (prependHook (applyChainOps [] ops) h).tail = applyChainOps [] ops ∧
    prependHook (prependHook (applyChainOps [] ops) h) g
      = g :: h :: applyChainOps [] ops := by
  simp [prependHook]

/-- C5: a chain built from hooks `pureHook f1, ..., pureHook fn` by appends
alone holds them in exact append order, and applying it computes the left
fold of `f1, ..., fn` over the input with no error: each hook's output value
is the next hook's input, in append order. -/
theorem append_only_chain_runs_in_order (p : Phase α ε)
    (fs : List (Value α → Value α)) (v : Value α) :
    (List.map (@pureHook α ε) fs).foldl appendHook []
      = List.map (@pureHook α ε) fs ∧
    p.processHooks v ((List.map (@pureHook α ε) fs).foldl appendHook [])
      = (fs.foldl (fun x f => f x) v, none) := by
  have hfold : (List.map (@pureHook α ε) fs).foldl appendHook []
      = List.map (@pureHook α ε) fs := by
    simpa using foldl_appendHook (List.map (@pureHook α ε) fs) []
  refine ⟨hfold, ?_⟩
  rw [hfold]
  clear hfold
  induction fs generalizing v with
  | nil => rfl
  | cons f t ih =>
    rw [List.map_cons, Phase.processHooks]
    simpa [pureHook] using ih (f v)

/-- C6: for every input value x, the round-trip Phase — pre-hooks double the
value, execute asserts the doubled value and passes it through, post-hooks
assert then halve then assert — returns the original input with no error. -/
theorem roundTrip_run_id (x : Int) :
    (roundTripPhase x).run (some x) = Except.ok (some x, none) := by
  have htdiv : Int.tdiv (x * 2) 2 = x := Int.mul_tdiv_cancel x (by norm_num)
  simp [roundTripPhase, Phase.run, Phase.processHooks, timesTwoHook,
    assertEqHook, halfHook, htdiv, Phase.handleError]

/-- C7: applying an empty hook chain to any value returns that value
unchanged with no error. -/
theorem processHooks_nil_id (p : Phase α ε) (v : Value α) :
    p.processHooks v [] = (v, none) :=
  rfl

/-- C8: the default (non-overridden) handleError returns nil together with
the error itself, unchanged, for every error: a strict pass-through that
discards the in-flight value. -/
theorem handleError_default (p : Phase α ε) (err : ε) :
    p.handleError err = (none, some err) :=
  rfl

/-- C9: if the pre-hook chain reports a non-nil error, `run` returns the
error handler's output for that error immediately — it never reaches the
nil-execute check, so this holds for every Phase, in particular one with an
unassigned execute function, and no panic occurs (the result is a normal
`Except.ok` pair). -/
theorem run_preHook_error_returns (p : Phase α ε) (v0 v1 : Value α) (err : ε)
    (hpre : p.processHooks v0 p.preHooks = (v1, some err)) :
    p.run v0 = Except.ok (p.handleError err) := by
  have hv : (v1, some err) = p.handleError err :=
    processHooks_error_eq_handleError p p.preHooks v0 v1 err hpre
  rw [Phase.run]
  simp only [hpre]
  rw [hv]

/-- C9 witness: a Phase with a failing pre-hook and no execute function:
`run` returns the pair `(nil, 7)` normally instead of panicking. -/
theorem run_preHook_error_returns_witness :
    noExecFailPrePhase.run (some 0)
      = Except.ok (noExecFailPrePhase.handleError 7) :=
  run_preHook_error_returns noExecFailPrePhase (some 0) none 7 rfl

/-- C10: each of the four hook-attachment operations changes only its target
chain — it leaves the Phase's Name, its execute function and the other chain
untouched, and rewrites its own chain by exactly the corresponding
prependHook/appendHook list operation. -/
theorem hook_attachment_frame (p : Phase α ε) (hook : PhaseHook α ε) :
    (p.prependPreHook hook).Name = p.Name ∧
    (p.prependPreHook hook).execute = p.execute ∧
    (p.prependPreHook hook).postHooks = p.postHooks ∧
    (p.prependPreHook hook).preHooks = prependHook p.preHooks hook ∧
    (p.appendPreHook hook).Name = p.Name ∧
    (p.appendPreHook hook).execute = p.execute ∧
    (p.appendPreHook hook).postHooks = p.postHooks ∧
    (p.appendPreHook hook).preHooks = appendHook p.preHooks hook ∧
    (p.prependPostHook hook).Name = p.Name ∧
    (p.prependPostHook hook).execute = p.execute ∧
    (p.prependPostHook hook).preHooks = p.preHooks ∧
    (p.prependPostHook hook).postHooks = prependHook p.postHooks hook ∧
    (p.appendPostHook hook).Name = p.Name ∧
    (p.appendPostHook hook).execute = p.execute ∧
    (p.appendPostHook hook).preHooks = p.preHooks ∧
    (p.appendPostHook hook).postHooks = appendHook p.postHooks hook :=
  ⟨rfl, rfl, rfl, rfl, rfl, rfl, rfl, rfl, rfl, rfl, rfl, rfl, rfl, rfl, rfl,
    rfl⟩

end Phaser
